import Mathlib

/-!
Verification of the assuan-rs client library.

This file gives a shallow embedding of the Assuan protocol client
(`assuan/src/lib.rs`) and of the gpg-agent facade (`gpgagent/src/lib.rs`),
and proves theorems about the response parser loop (`wait_response`), the
command encoder (`exec` with `percent_encode` over `ARG_ENCODE_SET`), the
session handshake (`AssuanClient::new`), the `option` convenience call and
the `GpgAgent::get_passphrase` facade.

Modelling conventions:
* Rust `String`/`&str` values are embedded as `List Char`.  All the tags
  the parser inspects are ASCII, so Rust's byte-indexed slicing
  (`resp[2..]`, `resp[3..]`) coincides with dropping characters.
* The read side of the channel is the list of lines that successive
  `read_line` calls deliver, a `List (List Char)`; reading past the end of
  the list yields the empty line, exactly as `read_line` returns `Ok(0)`
  leaving the buffer empty at end of stream.
* Byte strings (`&[u8]` arguments, the written wire bytes) are embedded as
  `List Nat`, each element a byte value.
* The channel is pure: transport errors are outside the model, so the
  `IoError` constructor of `AssuanError` is declared but never produced
  by the embedded functions.
-/

/-- The characters of a string literal: the embedding of Rust string data. -/
def chars (s : String) : List Char := s.data

/-- The bytes of an ASCII string literal, used for `str::as_bytes` on the
command names and arguments appearing in the development (all ASCII). -/
def str_bytes (s : String) : List Nat := s.data.map Char.toNat

/-- Rust `str::starts_with(pat)` at the character level: `starts_with s p`
is true when `p` is a prefix of `s`. -/
def starts_with : List Char → List Char → Bool
  | _, [] => true
  | [], _ :: _ => false
  | c :: s, p :: ps => c == p && starts_with s ps

/-- Rust `str::trim_end_matches("\n")`: remove every trailing line-feed
character (from `wait_response`, assuan/src/lib.rs line 156). -/
def trim_end_nl (l : List Char) : List Char :=
  (l.reverse.dropWhile (fun c => c == '\n')).reverse

/-- `AssuanError` (assuan/src/lib.rs lines 26-29).  The `IoError` payload is
not modelled: the embedded channel is pure and never produces one. -/
inductive AssuanError : Type
  | IoError : AssuanError
  | Other : List Char → AssuanError
deriving DecidableEq

/-- `CallResult = (msg, data)` (assuan/src/lib.rs line 14). -/
abbrev CallResult : Type := List Char × List Char

/-- Decidable equality for `Except`, needed to evaluate the embedded
functions on concrete inputs. -/
instance {e a : Type} [DecidableEq e] [DecidableEq a] : DecidableEq (Except e a) := fun x y =>
  match x, y with
  | .ok u, .ok v =>
    if h : u = v then .isTrue (by rw [h]) else .isFalse (fun hc => h (Except.ok.inj hc))
  | .ok _, .error _ => .isFalse (fun hc => Except.noConfusion hc)
  | .error _, .ok _ => .isFalse (fun hc => Except.noConfusion hc)
  | .error u, .error v =>
    if h : u = v then .isTrue (by rw [h]) else .isFalse (fun hc => h (Except.error.inj hc))

/-- `AssuanClient::wait_response` (assuan/src/lib.rs lines 141-180) as a
function of the list of lines still unread and of the data accumulated so
far (the Rust loop starts with `data` empty).  Each read line is stripped
of trailing line-feeds and classified by prefix, in the source's order:
`OK` (terminal success, message is the remainder after the two tag
characters), `ERR ` (terminal failure, message is `resp[3..]`, the
remainder after three characters), `D ` (append the remainder to the data
accumulator), `S ` (ignored), `INQUIRE` (unsupported, fails the call),
`#` (ignored), anything else fails the call.  When the line list is
exhausted, `read_line` yields the empty line, which matches none of the
prefixes, so the loop stops with the unsupported-response error. -/
def wait_response : List (List Char) → List Char → Except AssuanError CallResult
  | [], _ =>
    .error (.Other (chars ("Unsupported Assuan response")))
  | line :: rest, data =>
    let resp := trim_end_nl line
    if starts_with resp (chars ("OK")) then
      .ok (resp.drop 2, data)
    else if starts_with resp (chars ("ERR ")) then
      .error (.Other (resp.drop 3))
    else if starts_with resp (chars ("D ")) then
      wait_response rest (data ++ resp.drop 2)
    else if starts_with resp (chars ("S ")) then
      wait_response rest data
    else if starts_with resp (chars ("INQUIRE")) then
      .error (.Other (chars ("Received unsupported INQUIRE message")))
    else if starts_with resp (chars ("#")) then
      wait_response rest data
    else
      .error (.Other (chars ("Unsupported Assuan response")))

/-- The same loop with an explicit bound on the number of `read_line`
calls, the direct image of the unbounded Rust `loop`: `none` means the
loop did not finish within `fuel` reads.  A read past the end of the
line list delivers the empty line (end of stream). -/
def wait_response_fuel :
    Nat → List (List Char) → List Char → Option (Except AssuanError CallResult)
  | 0, _, _ => none
  | fuel + 1, lines, data =>
    let resp := trim_end_nl (lines.headD [])
    if starts_with resp (chars ("OK")) then
      some (.ok (resp.drop 2, data))
    else if starts_with resp (chars ("ERR ")) then
      some (.error (.Other (resp.drop 3)))
    else if starts_with resp (chars ("D ")) then
      wait_response_fuel fuel lines.tail (data ++ resp.drop 2)
    else if starts_with resp (chars ("S ")) then
      wait_response_fuel fuel lines.tail data
    else if starts_with resp (chars ("INQUIRE")) then
      some (.error (.Other (chars ("Received unsupported INQUIRE message"))))
    else if starts_with resp (chars ("#")) then
      wait_response_fuel fuel lines.tail data
    else
      some (.error (.Other (chars ("Unsupported Assuan response"))))

/-- `ARG_ENCODE_SET` (assuan/src/lib.rs lines 16-24): its `contains`
method holds of the bytes CR (13), LF (10), `%` (37) and space (32). -/
def ARG_ENCODE_SET_contains (byte : Nat) : Bool :=
  [13, 10, 37, 32].contains byte

/-- One uppercase hexadecimal digit, as produced by the `url` crate's
percent-encoding table (`%0A`, `%20`, ...). -/
def hex_upper (n : Nat) : Nat :=
  if n < 10 then 48 + n else 55 + n

/-- `percent_encode(arg, ARG_ENCODE_SET)` (used at assuan/src/lib.rs line
112), flattened to the byte sequence the pushed chunks concatenate to:
a byte in the set becomes `%` plus two uppercase hex digits of its value,
any other byte passes through unchanged. -/
def percent_encode (arg : List Nat) : List Nat :=
  arg.flatMap (fun byte =>
    if ARG_ENCODE_SET_contains byte then
      [37, hex_upper (byte / 16), hex_upper (byte % 16)]
    else
      [byte])

/-- The command string `AssuanClient::exec` builds (assuan/src/lib.rs lines
106-116): the name, then for each argument a space followed by its
percent-encoding. -/
def exec_cmd (name : List Nat) (args : List (List Nat)) : List Nat :=
  args.foldl (fun cmd arg => cmd ++ 32 :: percent_encode arg) name

/-- The bytes `AssuanClient::call` writes for a command (assuan/src/lib.rs
lines 119-132): the command string followed by a single line-feed. -/
def call_wire (command : List Nat) : List Nat :=
  command ++ [10]

/-- `AssuanClient::exec` (assuan/src/lib.rs lines 106-117): the pair of the
written wire bytes and of the parser-loop result on the response lines. -/
def exec (name : List Nat) (args : List (List Nat)) (lines : List (List Char)) :
    List Nat × Except AssuanError CallResult :=
  (call_wire (exec_cmd name args), wait_response lines [])

/-- `AssuanClient::option` (assuan/src/lib.rs lines 137-139):
`exec("OPTION", [name, val]).map(drop the payload)`. -/
def option (name val : List Nat) (lines : List (List Char)) :
    List Nat × Except AssuanError Unit :=
  let r := exec (str_bytes ("OPTION")) [name, val] lines
  (r.1, r.2.map (fun _ => ()))

/-- `AssuanClient::new` (assuan/src/lib.rs lines 94-103): run the parser
loop once on the greeting and keep the client exactly when it succeeds;
its error, if any, is returned unchanged.  Only the outcome is modelled,
the constructed client being determined by the channel. -/
def AssuanClient.new (lines : List (List Char)) : Except AssuanError Unit :=
  (wait_response lines []).map (fun _ => ())

/-- `GpgAgentError` (gpgagent/src/lib.rs lines 22-26). -/
inductive GpgAgentError : Type
  | SocketNotFound : GpgAgentError
  | Protocol : AssuanError → GpgAgentError
  | InvalidPassword : GpgAgentError
deriving DecidableEq

/-- The value of one hex digit character, per the match arms of
`rustc_serialize::hex::FromHex::from_hex`: `A`-`F`, `a`-`f`, `0`-`9`. -/
def hex_value (c : Char) : Option Nat :=
  if 'A' ≤ c ∧ c ≤ 'F' then some (c.toNat - 65 + 10)
  else if 'a' ≤ c ∧ c ≤ 'f' then some (c.toNat - 97 + 10)
  else if '0' ≤ c ∧ c ≤ '9' then some (c.toNat - 48)
  else none

/-- `rustc_serialize::hex::FromHex::from_hex`, the hex decoder
`get_passphrase` applies: hex digits are accumulated two per output byte
through the u8 buffer `buf` (shifted left by 4 at each character, hence
the `% 256`), the whitespace bytes space, CR, LF and TAB are skipped
(undoing the shift), any other character is an error, and a trailing odd
digit count is an error.  A byte is pushed when `modulus` reaches 2. -/
def from_hex_loop : List Char → Nat → Nat → List Nat → Option (List Nat)
  | [], modulus, _, acc => if modulus = 0 then some acc else none
  | c :: cs, modulus, buf, acc =>
    let buf1 := (buf <<< 4) % 256
    if c = ' ' ∨ c = '\r' ∨ c = '\n' ∨ c = '\t' then
      from_hex_loop cs modulus (buf1 >>> 4) acc
    else
      match hex_value c with
      | none => none
      | some v =>
        if modulus + 1 = 2 then
          from_hex_loop cs 0 (buf1 ||| v) (acc ++ [buf1 ||| v])
        else
          from_hex_loop cs (modulus + 1) (buf1 ||| v) acc

/-- `from_hex` on a whole string. -/
def from_hex (s : List Char) : Option (List Nat) :=
  from_hex_loop s 0 0 []

/-- `GpgAgent::get_passphrase` (gpgagent/src/lib.rs lines 104-109): run
`exec("GET_PASSPHRASE", [cache_id, error_message, prompt, description])`,
keep field `.0` — the message — of the call result, and hex-decode it;
a failed decode becomes `InvalidPassword`, a protocol error is wrapped
in `Protocol`. -/
def get_passphrase (cache_id error_message prompt description : List Nat)
    (lines : List (List Char)) : List Nat × Except GpgAgentError (List Nat) :=
  let r := exec (str_bytes ("GET_PASSPHRASE"))
    [cache_id, error_message, prompt, description] lines
  (r.1,
    match r.2 with
    | .error err => .error (.Protocol err)
    | .ok res =>
      match from_hex res.1 with
      | some pass => .ok pass
      | none => .error .InvalidPassword)

/-- A line at which the parser loop stops: its trimmed form starts with
`OK` or with `ERR `. -/
def is_terminal (l : List Char) : Bool :=
  starts_with (trim_end_nl l) (chars ("OK")) ||
    starts_with (trim_end_nl l) (chars ("ERR "))

/-- Modelled from the claim's words, for comparison with `exec`: the
request line is the name, then for each argument one space and the
argument with every byte in {CR, LF, `%`, space} replaced by `%` plus two
hexadecimal digits of the byte value and every other byte unchanged,
terminated by a single line-feed. -/
def request_line_spec (name : List Nat) (args : List (List Nat)) : List Nat :=
  name ++
    args.flatMap (fun arg =>
      32 :: arg.flatMap (fun byte =>
        if byte = 13 ∨ byte = 10 ∨ byte = 37 ∨ byte = 32 then
          [37, hex_upper (byte / 16), hex_upper (byte % 16)]
        else
          [byte])) ++
    [10]

/-! ### Helper lemmas -/

theorem trim_end_nl_eq_self {l : List Char} (h : ('\n' : Char) ∉ l) :
    trim_end_nl l = l := by
  unfold trim_end_nl
  have hall : ∀ c ∈ l.reverse, ¬((fun c => c == '\n') c = true) := by
    intro c hc hb
    exact h (((beq_iff_eq).mp hb) ▸ List.mem_reverse.mp hc)
  rw [List.dropWhile_eq_self_iff.mpr, List.reverse_reverse]
  intro hl
  exact hall _ (List.get_mem _ _ hl)

/-- Trimming trailing newlines commutes with a two-character prefix whose
second character is not a newline. -/
theorem trim_end_nl_cons₂ (c₁ c₂ : Char) (h : c₂ ≠ '\n') (s : List Char) :
    trim_end_nl (c₁ :: c₂ :: s) = c₁ :: c₂ :: trim_end_nl s := by
  unfold trim_end_nl
  have : (c₁ :: c₂ :: s).reverse = s.reverse ++ [c₂, c₁] := by simp
  rw [this, List.dropWhile_append]
  split
  · next he =>
    have hs : s.reverse.dropWhile (fun c => c == '\n') = [] :=
      List.isEmpty_iff.mp he
    simp [hs, List.dropWhile_cons, h]
  · next he =>
    simp [List.reverse_append]

theorem chars_OK : chars ("OK") = ['O', 'K'] := rfl

theorem chars_ERR_sp : chars ("ERR ") = ['E', 'R', 'R', ' '] := rfl

theorem chars_D_sp : chars ("D ") = ['D', ' '] := rfl

theorem chars_S_sp : chars ("S ") = ['S', ' '] := rfl

theorem chars_INQUIRE : chars ("INQUIRE") = ['I', 'N', 'Q', 'U', 'I', 'R', 'E'] := rfl

theorem chars_hash : chars ("#") = ['#'] := rfl

theorem chars_sp : chars (" ") = [' '] := rfl

/-- A newline-free tail gives a newline-free `OK` line, and similarly for
the other ASCII tags used below. -/
theorem nl_not_mem_cons {s : List Char} {c : Char} (hc : c ≠ '\n')
    (h : ('\n' : Char) ∉ s) : ('\n' : Char) ∉ (c :: s) := by
  simp only [List.mem_cons]
  push_neg
  exact ⟨fun he => hc he.symm, h⟩

/-- Parser branch: a line `OK` + remainder succeeds with the remainder as
message and the accumulated data. -/
theorem wait_response_ok_line {s : List Char} (rest : List (List Char))
    (data : List Char) (h : ('\n' : Char) ∉ s) :
    wait_response (('O' :: 'K' :: s) :: rest) data = .ok (s, data) := by
  have hline : ('\n' : Char) ∉ ('O' :: 'K' :: s) :=
    nl_not_mem_cons (by decide) (nl_not_mem_cons (by decide) h)
  simp only [wait_response]
  rw [trim_end_nl_eq_self hline]
  simp [starts_with, chars_OK]

/-- Parser branch: a line `ERR ` + remainder fails, the message keeping the
separating space (the source drops three characters, `resp[3..]`). -/
theorem wait_response_err_line {m : List Char} (rest : List (List Char))
    (data : List Char) (h : ('\n' : Char) ∉ m) :
    wait_response (('E' :: 'R' :: 'R' :: ' ' :: m) :: rest) data
      = .error (.Other (' ' :: m)) := by
  have hline : ('\n' : Char) ∉ ('E' :: 'R' :: 'R' :: ' ' :: m) :=
    nl_not_mem_cons (by decide) (nl_not_mem_cons (by decide)
      (nl_not_mem_cons (by decide) (nl_not_mem_cons (by decide) h)))
  simp only [wait_response]
  rw [trim_end_nl_eq_self hline]
  simp [starts_with, chars_OK, chars_ERR_sp]

/-- Parser branch: a line `D ` + chunk appends the chunk to the data
accumulator and continues. -/
theorem wait_response_data_line {a : List Char} (rest : List (List Char))
    (data : List Char) (h : ('\n' : Char) ∉ a) :
    wait_response (('D' :: ' ' :: a) :: rest) data
      = wait_response rest (data ++ a) := by
  have hline : ('\n' : Char) ∉ ('D' :: ' ' :: a) :=
    nl_not_mem_cons (by decide) (nl_not_mem_cons (by decide) h)
  simp only [wait_response]
  rw [trim_end_nl_eq_self hline]
  simp [starts_with, chars_OK, chars_ERR_sp, chars_D_sp]

/-- Parser branch: a line `S ` + remainder is skipped, whatever the
remainder (trailing newlines included). -/
theorem wait_response_status_line (s : List Char) (rest : List (List Char))
    (data : List Char) :
    wait_response (('S' :: ' ' :: s) :: rest) data = wait_response rest data := by
  simp only [wait_response]
  rw [trim_end_nl_cons₂ 'S' ' ' (by decide) s]
  simp [starts_with, chars_OK, chars_ERR_sp, chars_D_sp, chars_S_sp]

/-- Parser branch: a line starting with `ERR` whose remainder does not
start with a space matches no classification and fails as unsupported. -/
theorem wait_response_err_no_space_line {t : List Char} (rest : List (List Char))
    (data : List Char) (h : ('\n' : Char) ∉ t)
    (hsp : starts_with t [' '] = false) :
    wait_response (('E' :: 'R' :: 'R' :: t) :: rest) data
      = .error (.Other (chars ("Unsupported Assuan response"))) := by
  have hline : ('\n' : Char) ∉ ('E' :: 'R' :: 'R' :: t) :=
    nl_not_mem_cons (by decide) (nl_not_mem_cons (by decide)
      (nl_not_mem_cons (by decide) h))
  simp only [wait_response]
  rw [trim_end_nl_eq_self hline]
  simp [starts_with, chars_OK, chars_ERR_sp, chars_D_sp, chars_S_sp,
    chars_INQUIRE, chars_hash, hsp]

/-- The result of the parser loop on `line :: rest` depends on `rest` only
through the recursive calls: tails equivalent under every accumulator give
equal results. -/
theorem wait_response_tail_congr (line : List Char) {rest₁ rest₂ : List (List Char)}
    (h : ∀ d, wait_response rest₁ d = wait_response rest₂ d) (data : List Char) :
    wait_response (line :: rest₁) data = wait_response (line :: rest₂) data := by
  simp only [wait_response]
  split_ifs <;> first | rfl | exact h _

/-- The `ARG_ENCODE_SET` membership test holds exactly of the four bytes
CR, LF, `%`, space. -/
theorem ARG_ENCODE_SET_contains_iff (byte : Nat) :
    ARG_ENCODE_SET_contains byte = true
      ↔ (byte = 13 ∨ byte = 10 ∨ byte = 37 ∨ byte = 32) := by
  simp [ARG_ENCODE_SET_contains]

/-- The parser loop on a run of Data lines followed by a terminal `OK`
line, with an arbitrary starting accumulator. -/
theorem wait_response_data_run (msg : List Char) (as : List (List Char))
    (has : ∀ a ∈ as, ('\n' : Char) ∉ a) (hmsg : ('\n' : Char) ∉ msg)
    (d : List Char) :
    wait_response (as.map (fun a => 'D' :: ' ' :: a) ++ [('O' :: 'K' :: msg)]) d
      = .ok (msg, d ++ as.flatten) := by
  induction as generalizing d with
  | nil => simpa using wait_response_ok_line [] d hmsg
  | cons a as ih =>
    have ha := has a (List.mem_cons_self a as)
    have has' : ∀ x ∈ as, ('\n' : Char) ∉ x :=
      fun x hx => has x (List.mem_cons_of_mem _ hx)
    simp only [List.map_cons, List.cons_append]
    rw [wait_response_data_line _ _ ha, ih has' _]
    simp [List.append_assoc]

/-! ### The claims -/

/-- C1: for a response of Data lines `D a`, `D b`, ... followed by a
terminal `OK` line, the parser loop succeeds with data the concatenation
of the Data remainders in arrival order, appended verbatim, and message
the remainder `msg` of the terminal line after its 2-character tag (per
spec §4.2 case 1 the remainder is used verbatim, with no leading-space
trim).  The lines carry no newline, as `read_line` guarantees. -/
theorem c1_data_concat_and_message (as : List (List Char)) (msg : List Char)
    (has : ∀ a ∈ as, ('\n' : Char) ∉ a) (hmsg : ('\n' : Char) ∉ msg) :
    wait_response (as.map (fun a => chars ("D ") ++ a) ++ [chars ("OK") ++ msg]) []
      = .ok (msg, as.flatten) := by
  simpa [chars_D_sp, chars_OK] using wait_response_data_run msg as has hmsg []

/-- Witness for C1: `D 68`, `D 65`, `OK done` gives data `6865` and
message ` done`. -/
theorem c1_data_concat_and_message_witness :
    wait_response ([chars ("68"), chars ("65")].map (fun a => chars ("D ") ++ a)
        ++ [chars ("OK") ++ chars (" done")]) []
      = .ok (chars (" done"), [chars ("68"), chars ("65")].flatten) :=
  c1_data_concat_and_message _ _ (by decide) (by decide)

/-- C2 as stated is false: on the terminal line
`ERR 67108922 Invalid passphrase` the call does not fail with message
`67108922 Invalid passphrase` — the source takes `resp[3..]`, keeping the
separating space. -/
theorem c2_err_message_counterexample :
    wait_response [chars ("ERR 67108922 Invalid passphrase")] []
      ≠ .error (.Other (chars ("67108922 Invalid passphrase"))) := by decide

/-- C2 amended: for every line starting with `ERR `, the parser loop stops
and the call fails carrying as its message the remainder after the first
three characters `ERR` — that is, the separating space followed by the
remainder after the 4-character tag; `ERR 67108922 Invalid passphrase`
yields the message ` 67108922 Invalid passphrase`, with a leading
space. -/
theorem c2_err_message_keeps_space (m : List Char) (rest : List (List Char))
    (d : List Char) (h : ('\n' : Char) ∉ m) :
    wait_response ((chars ("ERR ") ++ m) :: rest) d = .error (.Other (' ' :: m)) := by
  simpa [chars_ERR_sp] using wait_response_err_line rest d h

/-- Witness for the amended C2, at the claim's own terminal line. -/
theorem c2_err_message_keeps_space_witness :
    wait_response [chars ("ERR ") ++ chars ("67108922 Invalid passphrase")] []
      = .error (.Other (' ' :: chars ("67108922 Invalid passphrase"))) :=
  c2_err_message_keeps_space _ [] [] (by decide)

/-- C3 as stated is false: construction succeeds on the greeting
`D 68656c6c6f`, `OK`, although a Data line precedes the Success line. -/
theorem c3_new_counterexample :
    AssuanClient.new [chars ("D 68656c6c6f"), chars ("OK")] = .ok () := by decide

/-- C3 amended: session construction performs exactly one parser-loop read
and succeeds exactly when it does — a Failure line or a protocol error
fails construction with that same error, but Data (or Status or comment)
lines preceding the terminal Success line do not fail it. -/
theorem c3_new_follows_wait_response (lines : List (List Char)) :
    ((AssuanClient.new lines).isOk = (wait_response lines []).isOk)
      ∧ (∀ e, wait_response lines [] = .error e → AssuanClient.new lines = .error e) := by
  unfold AssuanClient.new
  constructor
  · cases wait_response lines [] <;> rfl
  · intro e he
    rw [he]
    rfl

/-- Witness for the amended C3: a Failure greeting fails construction with
the same error. -/
theorem c3_new_follows_wait_response_witness :
    AssuanClient.new [chars ("ERR boom")] = .error (.Other (chars (" boom"))) :=
  (c3_new_follows_wait_response [chars ("ERR boom")]).2 _ (by decide)

/-- C4: `exec` writes exactly one request line equal to the name, then for
each argument one space and the percent-escaped argument, terminated by a
single line-feed, where escaping replaces each byte in {CR, LF, `%`,
space} by `%` plus two hexadecimal digits of the byte value and passes
every other byte through unchanged (`request_line_spec` spells out the
claim's words). -/
theorem c4_exec_writes_request_line (name : List Nat) (args : List (List Nat))
    (lines : List (List Char)) :
    (exec name args lines).1 = request_line_spec name args := by
  have henc : ∀ arg : List Nat, percent_encode arg
      = arg.flatMap (fun byte =>
          if byte = 13 ∨ byte = 10 ∨ byte = 37 ∨ byte = 32 then
            [37, hex_upper (byte / 16), hex_upper (byte % 16)]
          else
            [byte]) := by
    intro arg
    unfold percent_encode
    induction arg with
    | nil => rfl
    | cons b t ih =>
      simp only [List.flatMap_cons, ih]
      congr 1
      by_cases hb : b = 13 ∨ b = 10 ∨ b = 37 ∨ b = 32
      · rw [if_pos ((ARG_ENCODE_SET_contains_iff b).mpr hb), if_pos hb]
      · rw [if_neg (fun hc => hb ((ARG_ENCODE_SET_contains_iff b).mp hc)), if_neg hb]
  have hcmd : ∀ acc, exec_cmd acc args
      = acc ++ args.flatMap (fun arg => 32 :: percent_encode arg) := by
    unfold exec_cmd
    induction args with
    | nil => intro acc; simp
    | cons a t ih =>
      intro acc
      simp only [List.foldl_cons, List.flatMap_cons, ih]
      simp [List.append_assoc]
  show call_wire (exec_cmd name args) = request_line_spec name args
  unfold call_wire request_line_spec
  rw [hcmd name]
  simp only [henc]

/-- C5 as stated is false: a stream may contain the line
`INQUIRE CIPHERTEXT` after a terminal line; the loop stops at the first
terminal line and returns success without ever reading the inquiry. -/
theorem c5_inquire_counterexample :
    wait_response [chars ("OK done"), chars ("INQUIRE CIPHERTEXT")] []
      = .ok (chars (" done"), []) := by decide

/-- C5 amended: for every response stream in which the line
`INQUIRE CIPHERTEXT` appears before any terminal (`OK`/`ERR `) line, the
parser loop yields an error — a protocol violation — and never a
successful result. -/
theorem c5_inquire_no_success (pre post : List (List Char)) (d : List Char)
    (h : ∀ l ∈ pre, is_terminal l = false) (r : CallResult) :
    wait_response (pre ++ chars ("INQUIRE CIPHERTEXT") :: post) d ≠ .ok r := by
  induction pre generalizing d with
  | nil =>
    intro hc
    rw [List.nil_append] at hc
    rw [show wait_response (chars ("INQUIRE CIPHERTEXT") :: post) d
        = .error (.Other (chars ("Received unsupported INQUIRE message"))) from rfl] at hc
    exact Except.noConfusion hc
  | cons l pre ih =>
    intro hc
    have hl := h l (List.mem_cons_self _ _)
    have h' : ∀ x ∈ pre, is_terminal x = false :=
      fun x hx => h x (List.mem_cons_of_mem _ hx)
    rw [List.cons_append] at hc
    simp only [wait_response] at hc
    simp only [is_terminal, Bool.or_eq_false_iff] at hl
    split_ifs at hc with h1 h2 h3 h4 h5 h6
    · exact absurd h1 (by simp [hl.1])
    · exact ih (d ++ List.drop 2 (trim_end_nl l)) h' hc
    · exact ih d h' hc
    · exact ih d h' hc

/-- Witness for the amended C5: a Data line, then the inquiry. -/
theorem c5_inquire_no_success_witness :
    wait_response ([chars ("D x")] ++ chars ("INQUIRE CIPHERTEXT") :: []) []
      ≠ .ok (chars ("y"), []) :=
  c5_inquire_no_success [chars ("D x")] [] [] (by decide) _

/-- C6 as stated is false: when the daemon replies `D 68656c6c6f` then
`OK`, `get_passphrase` does not return the bytes of `hello` — the source
hex-decodes `res.0`, the (here empty) message field, not the accumulated
data. -/
theorem c6_get_passphrase_counterexample :
    (get_passphrase [] [] [] [] [chars ("D 68656c6c6f"), chars ("OK")]).2
      ≠ .ok (str_bytes ("hello")) := by decide

/-- C6 amended: `get_passphrase` interprets the message field of the call
result as hexadecimal (the decoder skipping whitespace): when the daemon
replies `OK 68656c6c6f`, it returns the decoded bytes `hello`; when it
replies `D 68656c6c6f` then `OK`, the data field is ignored and the empty
message decodes to the empty byte string. -/
theorem c6_get_passphrase_decodes_message :
    (get_passphrase [] [] [] [] [chars ("OK 68656c6c6f")]).2
        = .ok (str_bytes ("hello"))
      ∧ (get_passphrase [] [] [] [] [chars ("D 68656c6c6f"), chars ("OK")]).2
        = .ok [] := by decide

/-- C7: status lines have no observable effect — inserting an `S ` line at
any point of the stream leaves the parser-loop result (outcome, message
and data alike) unchanged, for any accumulator state. -/
theorem c7_status_lines_no_effect (pre post : List (List Char))
    (s d : List Char) :
    wait_response (pre ++ (chars ("S ") ++ s) :: post) d
      = wait_response (pre ++ post) d := by
  induction pre generalizing d with
  | nil => simpa [chars_S_sp] using wait_response_status_line s post d
  | cons l pre ih =>
    simp only [List.cons_append]
    exact wait_response_tail_congr l (fun d' => ih d') d

/-- C8: `option name val` behaves exactly like `exec "OPTION" [name, val]`
with the success payload discarded — it writes the same wire line, returns
unit whenever `exec` succeeds, and fails with the same error whenever
`exec` fails. -/
theorem c8_option_is_exec_option (name val : List Nat) (lines : List (List Char)) :
    ((option name val lines).1
        = (exec (str_bytes ("OPTION")) [name, val] lines).1)
      ∧ (∀ r, (exec (str_bytes ("OPTION")) [name, val] lines).2 = .ok r →
          (option name val lines).2 = .ok ())
      ∧ (∀ e, (option name val lines).2 = .error e
          ↔ (exec (str_bytes ("OPTION")) [name, val] lines).2 = .error e) := by
  refine ⟨rfl, ?_, ?_⟩
  · intro r hr
    simp [option, hr, Except.map]
  · intro e
    unfold option
    cases hx : (exec (str_bytes ("OPTION")) [name, val] lines).2 <;>
      simp [Except.map, hx]

/-- Witness for C8: on the reply `OK`, `option` returns unit. -/
theorem c8_option_is_exec_option_witness :
    (option [] [] [chars ("OK")]).2 = .ok () :=
  (c8_option_is_exec_option [] [] [chars ("OK")]).2.1 ([], []) (by decide)

/-- C9: the parser loop terminates on every finite input — on a stream of
`n` lines it returns within `n + 1` reads (the fueled loop no longer
returns `none`), because the read past the last line delivers the empty
end-of-stream line, classified as an unsupported response, which stops
the loop with an error. -/
theorem c9_wait_response_terminates (lines : List (List Char)) (d : List Char) :
    wait_response_fuel (lines.length + 1) lines d = some (wait_response lines d)
      ∧ wait_response [] d
        = .error (.Other (chars ("Unsupported Assuan response"))) := by
  refine ⟨?_, rfl⟩
  induction lines generalizing d with
  | nil => rfl
  | cons l rest ih =>
    conv_lhs => rw [wait_response_fuel]
    conv_rhs => rw [wait_response]
    simp only [List.headD_cons, List.tail_cons]
    split_ifs <;> first | rfl | exact ih _

/-- C10: classification is purely prefix-based and asymmetric about the
separating space — any line whose first two characters are `OK` (such as
`OKAY done`) is terminal Success with message the verbatim remainder after
those two characters, while a line starting `ERR` whose remainder does not
continue with a space (such as `ERRONEOUS`) is no remote failure and stops
the call with the unsupported-response protocol error. -/
theorem c10_prefix_classification_asymmetry :
    (∀ s rest d, ('\n' : Char) ∉ s →
        wait_response ((chars ("OK") ++ s) :: rest) d = .ok (s, d))
      ∧ (∀ t rest d, ('\n' : Char) ∉ t → starts_with t (chars (" ")) = false →
          wait_response ((chars ("ERR") ++ t) :: rest) d
            = .error (.Other (chars ("Unsupported Assuan response")))) := by
  constructor
  · intro s rest d h
    simpa [chars_OK] using wait_response_ok_line rest d h
  · intro t rest d h hsp
    rw [chars_sp] at hsp
    simpa using wait_response_err_no_space_line rest d h hsp

/-- Witness for C10: `OKAY done` succeeds with message `AY done`;
`ERRONEOUS` stops the call as unsupported. -/
theorem c10_prefix_classification_asymmetry_witness :
    wait_response [chars ("OKAY done")] [] = .ok (chars ("AY done"), [])
      ∧ wait_response [chars ("ERRONEOUS")] []
        = .error (.Other (chars ("Unsupported Assuan response"))) :=
  ⟨c10_prefix_classification_asymmetry.1 (chars ("AY done")) [] [] (by decide),
    c10_prefix_classification_asymmetry.2 (chars ("ONEOUS")) [] [] (by decide)
      (by decide)⟩

